import Mathlib

/-!
Verification of the dense gravity sensitivity-operator assembler
(`SimPEG/PF/Gravity.py`): the prism row kernel `Forward.calcTrow`, the
chunk-planning loop and backend dispatch in `Forward.calculate`, and the
linear-operator facade (`GravityIntegral.G`, `fields`, `getJtJdiag`).

Numeric scalars are modelled as rationals.  The transcendental functions
used by the row kernel (`np.log`, `np.arctan`, the square root in `r`)
are passed as abstract function parameters `flog`, `fatan`, `fsqrt`:
every property proved here is independent of their semantics, and
concrete executable instances are substituted in the witnesses.
-/

namespace Gravity

/-- One receiver (observation) location, `xyzLoc` in the source. -/
structure Loc where
  x : ℚ
  y : ℚ
  z : ℚ
deriving DecidableEq

/-- One active cell: lower/upper corner coordinate per axis, the rows of
`Xn`, `Yn`, `Zn` in the source. -/
structure Cell where
  x1 : ℚ
  x2 : ℚ
  y1 : ℚ
  y2 : ℚ
  z1 : ℚ
  z2 : ℚ
deriving DecidableEq

/-- `NewtG = constants.G * 1e+8` with `constants.G = 6.6743e-11`. -/
def NewtG : ℚ := 66743 / 10 ^ 7

/-- `eps = 1e-8`, the singularity-avoiding offset. -/
def eps : ℚ := 1 / 10 ^ 8

/-- `dx[:, aa]` where `dx = self.Xn - xyzLoc[0]`; column 0 is the lower
corner, column 1 the upper corner. -/
def dxSel (cell : Cell) (loc : Loc) (aa : ℕ) : ℚ :=
  (if aa = 0 then cell.x1 else cell.x2) - loc.x

/-- `dy[:, bb]` where `dy = self.Yn - xyzLoc[1]`. -/
def dySel (cell : Cell) (loc : Loc) (bb : ℕ) : ℚ :=
  (if bb = 0 then cell.y1 else cell.y2) - loc.y

/-- `dz[:, cc]` where `dz = xyzLoc[2] - self.Zn`. -/
def dzSel (cell : Cell) (loc : Loc) (cc : ℕ) : ℚ :=
  loc.z - (if cc = 0 then cell.z1 else cell.z2)

/-- The component-dependent logarithmic/arctangent factor of one corner
contribution in `Forward.calcTrow`: the branch on `self.rxType`, with the
regularizing `eps` added to every `flog` argument and every `fatan`
denominator exactly as in the source. -/
def cornerComp (flog fatan : ℚ → ℚ) (rxType : String) (dx dy dz r : ℚ) : ℚ :=
  if rxType = "x" then
    dy * flog (dz + r + eps) + dz * flog (dy + r + eps) -
      dx * fatan (dy * dz / (dx * r + eps))
  else if rxType = "y" then
    dx * flog (dz + r + eps) + dz * flog (dx + r + eps) -
      dy * fatan (dx * dz / (dy * r + eps))
  else
    dx * flog (dy + r + eps) + dy * flog (dx + r + eps) -
      dz * fatan (dx * dy / (dz * r + eps))

/-- The corner index triples `(aa, bb, cc)` in the iteration order of the
three nested `for _ in range(2)` loops of `Forward.calcTrow`. -/
def corners : List (ℕ × ℕ × ℕ) :=
  [(0, 0, 0), (0, 0, 1), (0, 1, 0), (0, 1, 1),
   (1, 0, 0), (1, 0, 1), (1, 1, 0), (1, 1, 1)]

/-- One entry of the row computed by `Forward.calcTrow`: the accumulation
`row -= NewtG * (-1)**aa * (-1)**bb * (-1)**cc * (...)` over the eight
corners, for a single cell. -/
def calcTrowCell (fsqrt flog fatan : ℚ → ℚ) (rxType : String)
    (loc : Loc) (cell : Cell) : ℚ :=
  corners.foldl
    (fun row abc =>
      let dx := dxSel cell loc abc.1
      let dy := dySel cell loc abc.2.1
      let dz := dzSel cell loc abc.2.2
      let r := fsqrt (dx ^ 2 + dy ^ 2 + dz ^ 2)
      row - NewtG * (-1 : ℚ) ^ abc.1 * (-1 : ℚ) ^ abc.2.1 * (-1 : ℚ) ^ abc.2.2 *
        cornerComp flog fatan rxType dx dy dz r)
    0

/-- The full row of `Forward.calcTrow` (non-`forwardOnly` output): one
entry per active cell. -/
def calcTrow (fsqrt flog fatan : ℚ → ℚ) (rxType : String)
    (cells : List Cell) (loc : Loc) : List ℚ :=
  cells.map (calcTrowCell fsqrt flog fatan rxType loc)

/-- `np.dot` of two equal-length vectors. -/
def dotQ (a b : List ℚ) : ℚ := (List.zipWith (fun x y => x * y) a b).sum

lemma dxSel_zero (cell : Cell) (loc : Loc) : dxSel cell loc 0 = cell.x1 - loc.x := rfl

lemma dxSel_one (cell : Cell) (loc : Loc) : dxSel cell loc 1 = cell.x2 - loc.x := rfl

lemma dySel_zero (cell : Cell) (loc : Loc) : dySel cell loc 0 = cell.y1 - loc.y := rfl

lemma dySel_one (cell : Cell) (loc : Loc) : dySel cell loc 1 = cell.y2 - loc.y := rfl

lemma dzSel_zero (cell : Cell) (loc : Loc) : dzSel cell loc 0 = loc.z - cell.z1 := rfl

lemma dzSel_one (cell : Cell) (loc : Loc) : dzSel cell loc 1 = loc.z - cell.z2 := rfl

/-- Shared helper: the imperative eight-corner accumulation of
`Forward.calcTrow` equals the closed-form signed corner sum. -/
lemma calcTrowCell_sum (fsqrt flog fatan : ℚ → ℚ) (rxType : String)
    (loc : Loc) (cell : Cell) :
    calcTrowCell fsqrt flog fatan rxType loc cell =
      NewtG * ∑ a : Fin 2, ∑ b : Fin 2, ∑ c : Fin 2,
        (-1 : ℚ) ^ ((a : ℕ) + (b : ℕ) + (c : ℕ)) *
          (-(cornerComp flog fatan rxType
              (dxSel cell loc a) (dySel cell loc b) (dzSel cell loc c)
              (fsqrt (dxSel cell loc a ^ 2 + dySel cell loc b ^ 2 +
                dzSel cell loc c ^ 2)))) := by
  simp only [calcTrowCell, corners, List.foldl, Fin.sum_univ_two, Fin.val_zero, Fin.val_one]
  norm_num
  ring

/-- C4: each entry of the row kernel equals the conversion constant
`NewtG` times the signed sum over the prism's eight corners, the corner
indexed by `(a, b, c)` contributing its logarithmic/arctangent term
(whose `flog` arguments and `fatan` denominator carry the `eps`
regularization, see `cornerComp`) with sign `(-1) ^ (a + b + c)`, for
every receiver location, cell geometry and field component. -/
theorem calcTrow_corner_sum (fsqrt flog fatan : ℚ → ℚ) (rxType : String)
    (loc : Loc) (cell : Cell) :
    calcTrowCell fsqrt flog fatan rxType loc cell =
      NewtG * ∑ a : Fin 2, ∑ b : Fin 2, ∑ c : Fin 2,
        (-1 : ℚ) ^ ((a : ℕ) + (b : ℕ) + (c : ℕ)) *
          (-(cornerComp flog fatan rxType
              (dxSel cell loc a) (dySel cell loc b) (dzSel cell loc c)
              (fsqrt (dxSel cell loc a ^ 2 + dySel cell loc b ^ 2 +
                dzSel cell loc c ^ 2)))) :=
  calcTrowCell_sum fsqrt flog fatan rxType loc cell

set_option maxHeartbeats 1600000 in
/-- C7: a degenerate (zero-volume) cell, whose lower and upper corner
coincide on at least one axis, contributes exactly zero to the row, for
every receiver location and field component: the two corner terms that
differ only in that axis's index cancel pairwise. -/
theorem calcTrow_degenerate_zero (fsqrt flog fatan : ℚ → ℚ) (rxType : String)
    (loc : Loc) (cell : Cell)
    (h : cell.x1 = cell.x2 ∨ cell.y1 = cell.y2 ∨ cell.z1 = cell.z2) :
    calcTrowCell fsqrt flog fatan rxType loc cell = 0 := by
  rw [calcTrowCell_sum]
  simp only [Fin.sum_univ_two, Fin.val_zero, Fin.val_one, dxSel_zero, dxSel_one,
    dySel_zero, dySel_one, dzSel_zero, dzSel_one]
  rcases h with h | h | h <;> rw [h] <;> ring

/-- Closed witness for `calcTrow_degenerate_zero`: a concrete cell with
`x1 = x2` yields a zero row entry. -/
theorem calcTrow_degenerate_zero_witness :
    (Cell.mk 1 1 2 3 4 5).x1 = (Cell.mk 1 1 2 3 4 5).x2 ∧
      calcTrowCell id id id "z" (Loc.mk 7 8 9) (Cell.mk 1 1 2 3 4 5) = 0 :=
  ⟨rfl, calcTrow_degenerate_zero id id id "z" (Loc.mk 7 8 9) (Cell.mk 1 1 2 3 4 5)
    (Or.inl rfl)⟩

/-- C10: any field-component identifier other than `"x"` and `"y"` is
silently treated as the vertical component: the row kernel computes the
`"z"` response and no validation or error occurs. -/
theorem calcTrow_component_fallback (fsqrt flog fatan : ℚ → ℚ) (s : String)
    (loc : Loc) (cell : Cell) (hx : s ≠ "x") (hy : s ≠ "y") :
    calcTrowCell fsqrt flog fatan s loc cell =
      calcTrowCell fsqrt flog fatan "z" loc cell := by
  have hz1 : ("z" : String) ≠ "x" := by decide
  have hz2 : ("z" : String) ≠ "y" := by decide
  simp only [calcTrowCell, cornerComp, if_neg hx, if_neg hy, if_neg hz1, if_neg hz2]

/-- Closed witness for `calcTrow_component_fallback`: the misspelled
component `"zz"` computes the `"z"` response. -/
theorem calcTrow_component_fallback_witness :
    "zz" ≠ "x" ∧ "zz" ≠ "y" ∧
      calcTrowCell id id id "zz" (Loc.mk 7 8 9) (Cell.mk 0 1 0 1 0 1) =
        calcTrowCell id id id "z" (Loc.mk 7 8 9) (Cell.mk 0 1 0 1 0 1) :=
  ⟨by decide, by decide,
    calcTrow_component_fallback id id id "zz" (Loc.mk 7 8 9) (Cell.mk 0 1 0 1 0 1)
      (by decide) (by decide)⟩

/-- `int(np.ceil(a / b))` for nonnegative integers: ceiling division. -/
def cdiv (a b : ℕ) : ℕ := (a + b - 1) / b

/-- The per-worker memory estimate `rowChunk * colChunk * 8 * n_cpu * 1e-9`
(gigabytes), computed exactly over the rationals. -/
def est (r c n_cpu : ℕ) : ℚ := (r : ℚ) * (c : ℚ) * 8 * (n_cpu : ℚ) / 10 ^ 9

/-- The `while totRAM > self.maxRAM` loop of `Forward.calculate`: double
`nChunks` and recompute both chunk sizes by ceiling division until the
estimate fits the budget.  `fuel` bounds the number of iterations; `none`
models a loop that has not exited within `fuel` steps. -/
def planLoop (nD nC n_cpu : ℕ) (maxRAM : ℚ) :
    ℕ → ℕ → ℕ → ℕ → Option (ℕ × ℕ)
  | 0, _, _, _ => none
  | fuel + 1, nChunks, rowChunk, colChunk =>
    if est rowChunk colChunk n_cpu > maxRAM then
      planLoop nD nC n_cpu maxRAM fuel (nChunks * 2)
        (cdiv nD (nChunks * 2)) (cdiv nC (nChunks * 2))
    else
      some (rowChunk, colChunk)

/-- The chunk planner of `Forward.calculate`: start from
`nChunks = n_cpu` with the floor-divided chunk sizes
`int(nD / nChunks), int(nC / nChunks)`, then run the doubling loop. -/
def plan (fuel nD nC n_cpu : ℕ) (maxRAM : ℚ) : Option (ℕ × ℕ) :=
  planLoop nD nC n_cpu maxRAM fuel n_cpu (nD / n_cpu) (nC / n_cpu)

lemma planLoop_succ (nD nC n_cpu : ℕ) (maxRAM : ℚ) (fuel nChunks r c : ℕ) :
    planLoop nD nC n_cpu maxRAM (fuel + 1) nChunks r c =
      if est r c n_cpu > maxRAM then
        planLoop nD nC n_cpu maxRAM fuel (nChunks * 2)
          (cdiv nD (nChunks * 2)) (cdiv nC (nChunks * 2))
      else some (r, c) := rfl

/-- C2 counterexample: with `nD = 1`, `nC = 1`, `n_cpu = 2` and the
default budget `maxRAM = 8`, the initial floor division
`int(nD / nChunks)` yields chunk size `0`, the estimate `0` already fits
the budget, and the planner returns chunk sizes `(0, 0)` — not at least
`1` as the claim states. -/
theorem plan_floor_zero_cex :
    ¬ (∀ r c, plan 64 1 1 2 8 = some (r, c) → 1 ≤ r ∧ 1 ≤ c) := by
  intro hcl
  have h1 : plan 64 1 1 2 8 = some (0, 0) := by
    unfold plan
    norm_num
    rw [show (64 : ℕ) = 63 + 1 from rfl, planLoop_succ, if_neg (by norm_num [est])]
    rfl
  exact absurd (hcl 0 0 h1).1 (by omega)

/-- Soundness statement for the amended planner claim: within
`nD + nC + 2` iterations the loop exits with chunk sizes at least `1`
whose estimate fits the budget. -/
def planSound (nD nC n_cpu : ℕ) (maxRAM : ℚ) : Prop :=
  ∃ r c, plan (nD + nC + 2) nD nC n_cpu maxRAM = some (r, c) ∧
    1 ≤ r ∧ 1 ≤ c ∧ est r c n_cpu ≤ maxRAM

lemma cdiv_ge_one {a b : ℕ} (ha : 1 ≤ a) (hb : 1 ≤ b) : 1 ≤ cdiv a b := by
  unfold cdiv
  rw [Nat.one_le_div_iff (by omega)]
  omega

lemma cdiv_eq_one {a b : ℕ} (ha : 1 ≤ a) (hab : a ≤ b) : cdiv a b = 1 := by
  unfold cdiv
  have hb : 0 < b := by omega
  exact Nat.div_eq_of_lt_le (by omega) (by omega)

lemma planLoop_sound (nD nC n_cpu : ℕ) (maxRAM : ℚ) (hD : 1 ≤ nD) (hC : 1 ≤ nC)
    (hram : est 1 1 n_cpu ≤ maxRAM) :
    ∀ k fuel nChunks, 1 ≤ nChunks → k + 1 ≤ fuel →
      nD ≤ 2 ^ k * nChunks → nC ≤ 2 ^ k * nChunks →
      ∃ r c, planLoop nD nC n_cpu maxRAM fuel nChunks
          (cdiv nD nChunks) (cdiv nC nChunks) = some (r, c) ∧
        1 ≤ r ∧ 1 ≤ c ∧ est r c n_cpu ≤ maxRAM := by
  intro k
  induction k with
  | zero =>
    intro fuel nChunks h1 hf hD2 hC2
    obtain ⟨m, rfl⟩ : ∃ m, fuel = m + 1 := ⟨fuel - 1, by omega⟩
    simp only [pow_zero, one_mul] at hD2 hC2
    rw [cdiv_eq_one hD hD2, cdiv_eq_one hC hC2]
    refine ⟨1, 1, ?_, le_refl 1, le_refl 1, hram⟩
    simp only [planLoop, if_neg (not_lt.mpr hram)]
  | succ k ih =>
    intro fuel nChunks h1 hf hD2 hC2
    obtain ⟨m, rfl⟩ : ∃ m, fuel = m + 1 := ⟨fuel - 1, by omega⟩
    by_cases hover : est (cdiv nD nChunks) (cdiv nC nChunks) n_cpu > maxRAM
    · simp only [planLoop, if_pos hover]
      refine ih m (nChunks * 2) (by omega) (by omega) ?_ ?_
      · calc nD ≤ 2 ^ (k + 1) * nChunks := hD2
          _ = 2 ^ k * (nChunks * 2) := by ring
      · calc nC ≤ 2 ^ (k + 1) * nChunks := hC2
          _ = 2 ^ k * (nChunks * 2) := by ring
    · simp only [planLoop, if_neg hover]
      exact ⟨cdiv nD nChunks, cdiv nC nChunks, rfl, cdiv_ge_one hD h1,
        cdiv_ge_one hC h1, not_lt.mp hover⟩

/-- C2 (amended): for `nD, nC, n_cpu ≥ 1` with `n_cpu ≤ nD`, `n_cpu ≤ nC`
and a budget at least the minimal estimate `8 * n_cpu * 1e-9` (one
element per worker), the chunk-planning loop exits within `nD + nC + 2`
iterations and returns chunk sizes at least `1` whose estimated memory
usage is at most the budget. -/
theorem plan_sound (nD nC n_cpu : ℕ) (maxRAM : ℚ)
    (hD : 1 ≤ nD) (hC : 1 ≤ nC) (hcpu : 1 ≤ n_cpu)
    (hDcpu : n_cpu ≤ nD) (hCcpu : n_cpu ≤ nC)
    (hram : est 1 1 n_cpu ≤ maxRAM) :
    planSound nD nC n_cpu maxRAM := by
  unfold planSound plan
  show ∃ r c, planLoop nD nC n_cpu maxRAM ((nD + nC + 1) + 1) n_cpu
      (nD / n_cpu) (nC / n_cpu) = some (r, c) ∧
      1 ≤ r ∧ 1 ≤ c ∧ est r c n_cpu ≤ maxRAM
  by_cases hinit : est (nD / n_cpu) (nC / n_cpu) n_cpu > maxRAM
  · simp only [planLoop, if_pos hinit]
    refine planLoop_sound nD nC n_cpu maxRAM hD hC hram (nD + nC) (nD + nC + 1)
      (n_cpu * 2) (by omega) (by omega) ?_ ?_
    · calc nD ≤ 2 ^ (nD + nC) := le_of_lt (by
          calc nD ≤ nD + nC := by omega
            _ < 2 ^ (nD + nC) := Nat.lt_two_pow _)
        _ ≤ 2 ^ (nD + nC) * (n_cpu * 2) := Nat.le_mul_of_pos_right _ (by omega)
    · calc nC ≤ 2 ^ (nD + nC) := le_of_lt (by
          calc nC ≤ nD + nC := by omega
            _ < 2 ^ (nD + nC) := Nat.lt_two_pow _)
        _ ≤ 2 ^ (nD + nC) * (n_cpu * 2) := Nat.le_mul_of_pos_right _ (by omega)
  · simp only [planLoop, if_neg hinit]
    exact ⟨nD / n_cpu, nC / n_cpu, rfl,
      (Nat.one_le_div_iff (by omega)).mpr hDcpu,
      (Nat.one_le_div_iff (by omega)).mpr hCcpu, not_lt.mp hinit⟩

/-- Closed witness for `plan_sound` at `nD = nC = 1000`, `n_cpu = 4`,
`maxRAM = 1/1000` (a budget below the unconstrained starting estimate,
forcing the doubling loop to run). -/
theorem plan_sound_witness : planSound 1000 1000 4 (1 / 1000) :=
  plan_sound 1000 1000 4 (1 / 1000) (by decide) (by decide) (by decide)
    (by decide) (by decide) (by norm_num [est])

/-- The error taxonomy: `notPaired` models the
`Exception('Need to pair!')` raised by the `G` property (the spec's
`NotPairedError`), `configError` models the `AssertionError` raised for
an invalid `parallelized` value (the spec's `ConfigurationError`), and
`zeroDivision` models the `ZeroDivisionError` raised eagerly by
`stack.rechunk((rowChunk, colChunk))` when a planned chunk size is `0`
(dask normalizes the chunk shape with an integer division by the chunk
size). -/
inductive GravError where
  | notPaired : String → GravError
  | configError : String → GravError
  | zeroDivision : GravError
deriving DecidableEq

/-- Python truthiness of the `parallelized` attribute: `None` and the
empty string are falsy (select the sequential backend), any other string
is truthy. -/
def truthy : Option String → Bool
  | none => false
  | some s => if s = "" then false else true

/-- The assertion message of `Forward.calculate` (the two adjacent
string literals of the source concatenate without a separator): it names
the allowed set and the offending value. -/
def configMsg (s : String) : String :=
  "parallelization must be dask, multiprocessing or None" ++
    "Value provided -> " ++ s

/-- The matrix result of one receiver row stacked per receiver: what all
backends are supposed to produce. -/
def kernelRows (fsqrt flog fatan : ℚ → ℚ) (rxType : String)
    (cells : List Cell) (rxLoc : List Loc) : List (List ℚ) :=
  rxLoc.map (calcTrow fsqrt flog fatan rxType cells)

/-- `Forward.calculate`: run the chunk-planning loop, then dispatch on
the backend.  The result is `none` when the planning loop does not exit
(the source then loops forever); otherwise it carries the outcome of the
assembly (`Except` for the assertion on invalid backends and for the
`ZeroDivisionError` of `stack.rechunk((rowChunk, colChunk))` when a
planned chunk size is `0` — raised before `da.to_zarr`, so nothing is
persisted and no row is evaluated), the content of the zarr store at
`Jpath` after the call (`store` models `os.path.exists(Jpath)` plus the
stored array), and the number of row-kernel (`calcTrow`) invocations. -/
def calculate (fsqrt flog fatan : ℚ → ℚ) (rxType : String)
    (parallelized : Option String) (storeG : Bool)
    (store : Option (List (List ℚ))) (n_cpu : ℕ) (maxRAM : ℚ)
    (rxLoc : List Loc) (cells : List Cell) :
    Option (Except GravError (List (List ℚ)) × Option (List (List ℚ)) × ℕ) :=
  let nD := rxLoc.length
  let nC := cells.length
  match plan (nD + nC + 2) nD nC n_cpu maxRAM with
  | none => none
  | some (rowChunk, colChunk) =>
    if truthy parallelized then
      if parallelized = some "dask" ∨ parallelized = some "multiprocessing" then
        if parallelized = some "dask" then
          match store with
          | some g => some (Except.ok g, some g, 0)
          | none =>
            let stack :=
              (rxLoc.map (fun loc => [calcTrow fsqrt flog fatan rxType cells loc])).flatten
            if rowChunk = 0 ∨ colChunk = 0 then
              some (Except.error GravError.zeroDivision, none, 0)
            else if storeG then some (Except.ok stack, some stack, rxLoc.length)
            else some (Except.ok stack, none, rxLoc.length)
        else
          some (Except.ok (rxLoc.map (calcTrow fsqrt flog fatan rxType cells)),
            store, rxLoc.length)
      else
        some (Except.error (GravError.configError (configMsg (parallelized.getD ""))),
          store, 0)
    else
      some (Except.ok
        (rxLoc.foldl (fun acc loc => acc ++ [calcTrow fsqrt flog fatan rxType cells loc]) []),
        store, rxLoc.length)

lemma flatten_map_singleton {α β : Type} (f : α → List β) (l : List α) :
    (l.map (fun x => [f x])).flatten = l.map f := by
  induction l with
  | nil => rfl
  | cons a t ih => simp [ih]

lemma foldl_append_map {α β : Type} (f : α → β) (l : List α) :
    ∀ acc : List β, l.foldl (fun acc x => acc ++ [f x]) acc = acc ++ l.map f := by
  induction l with
  | nil => intro acc; simp
  | cons a t ih => intro acc; simp [ih]

lemma plan_1_1_1_8 : plan 4 1 1 1 8 = some (1, 1) := by
  unfold plan
  norm_num
  rw [show (4 : ℕ) = 3 + 1 from rfl, planLoop_succ, if_neg (by norm_num [est])]
  rfl

lemma plan_1_1_2_8 : plan 4 1 1 2 8 = some (0, 0) := by
  unfold plan
  norm_num
  rw [show (4 : ℕ) = 3 + 1 from rfl, planLoop_succ, if_neg (by norm_num [est])]
  rfl

/-- C1 counterexample: on a one-receiver, one-cell problem with
`n_cpu = 2` and the default budget, the planner exits with chunk sizes
`(0, 0)` (floor division), so the dask backend raises
`ZeroDivisionError` in `stack.rechunk` while the sequential backend
returns the kernel row: backend choice does change the result. -/
theorem backends_disagree_cex :
    (calculate id id id "z" (some "dask") true none 2 8
        [Loc.mk 0 0 0] [Cell.mk 0 1 0 1 0 1]).map (fun t => t.1) ≠
      (calculate id id id "z" none true none 2 8
        [Loc.mk 0 0 0] [Cell.mk 0 1 0 1 0 1]).map (fun t => t.1) := by
  simp [calculate, plan_1_1_2_8, truthy, kernelRows, foldl_append_map]

/-- C1 (amended): whenever the chunk planner exits with both chunk
sizes at least `1` (so that `stack.rechunk` succeeds), the task-graph
(dask), worker-pool (multiprocessing) and sequential backends all
produce the same matrix from an absent store: the row-kernel output for
each receiver, stacked in receiver order — independently of `storeG`
and of the worker count.  When a planned chunk size is `0` the dask
backend raises `ZeroDivisionError` while the other two still return the
kernel rows (see the counterexample). -/
theorem backends_agree (fsqrt flog fatan : ℚ → ℚ) (rxType : String) (storeG : Bool)
    (n_cpu : ℕ) (maxRAM : ℚ) (rxLoc : List Loc) (cells : List Cell)
    (rowChunk colChunk : ℕ)
    (hplan : plan (rxLoc.length + cells.length + 2) rxLoc.length cells.length
        n_cpu maxRAM = some (rowChunk, colChunk))
    (hrow : 1 ≤ rowChunk) (hcol : 1 ≤ colChunk) :
    (calculate fsqrt flog fatan rxType (some "dask") storeG none n_cpu maxRAM
        rxLoc cells).map (fun t => t.1) =
      some (Except.ok (kernelRows fsqrt flog fatan rxType cells rxLoc)) ∧
    (calculate fsqrt flog fatan rxType (some "multiprocessing") storeG none n_cpu maxRAM
        rxLoc cells).map (fun t => t.1) =
      some (Except.ok (kernelRows fsqrt flog fatan rxType cells rxLoc)) ∧
    (calculate fsqrt flog fatan rxType none storeG none n_cpu maxRAM
        rxLoc cells).map (fun t => t.1) =
      some (Except.ok (kernelRows fsqrt flog fatan rxType cells rxLoc)) := by
  have hnz : ¬ (rowChunk = 0 ∨ colChunk = 0) := by omega
  refine ⟨?_, ?_, ?_⟩
  · cases storeG <;>
      simp [calculate, hplan, hnz, truthy, kernelRows, flatten_map_singleton]
  · simp [calculate, hplan, truthy, kernelRows]
  · simp [calculate, hplan, truthy, kernelRows, foldl_append_map]

/-- Closed witness for `backends_agree`: a one-receiver, one-cell
problem with chunk plan `(1, 1)` on which all three backends return the
single kernel row. -/
theorem backends_agree_witness :
    (calculate id id id "z" (some "dask") false none 1 8
        [Loc.mk 0 0 0] [Cell.mk 0 1 0 1 0 1]).map (fun t => t.1) =
      some (Except.ok (kernelRows id id id "z" [Cell.mk 0 1 0 1 0 1] [Loc.mk 0 0 0])) ∧
    (calculate id id id "z" (some "multiprocessing") false none 1 8
        [Loc.mk 0 0 0] [Cell.mk 0 1 0 1 0 1]).map (fun t => t.1) =
      some (Except.ok (kernelRows id id id "z" [Cell.mk 0 1 0 1 0 1] [Loc.mk 0 0 0])) ∧
    (calculate id id id "z" none false none 1 8
        [Loc.mk 0 0 0] [Cell.mk 0 1 0 1 0 1]).map (fun t => t.1) =
      some (Except.ok (kernelRows id id id "z" [Cell.mk 0 1 0 1 0 1] [Loc.mk 0 0 0])) :=
  backends_agree id id id "z" false 1 8 [Loc.mk 0 0 0] [Cell.mk 0 1 0 1 0 1] 1 1
    (by simp [plan_1_1_1_8]) (by decide) (by decide)

/-- C5: round-trip caching in the dask backend with persistence on
(`storeG = true`), on any input whose chunk plan has both sizes at
least `1` (so the first assembly — which the claim presupposes —
succeeds).  The first assembly from an absent store computes every row,
returns the stacked kernel rows and persists them; a second invocation
with the same path and inputs finds the store, returns the same matrix,
and invokes the row kernel zero times. -/
theorem cache_roundtrip (fsqrt flog fatan : ℚ → ℚ) (rxType : String)
    (n_cpu : ℕ) (maxRAM : ℚ) (rxLoc : List Loc) (cells : List Cell)
    (rowChunk colChunk : ℕ)
    (hplan : plan (rxLoc.length + cells.length + 2) rxLoc.length cells.length
        n_cpu maxRAM = some (rowChunk, colChunk))
    (hrow : 1 ≤ rowChunk) (hcol : 1 ≤ colChunk) :
    calculate fsqrt flog fatan rxType (some "dask") true none n_cpu maxRAM rxLoc cells =
      some (Except.ok (kernelRows fsqrt flog fatan rxType cells rxLoc),
        some (kernelRows fsqrt flog fatan rxType cells rxLoc), rxLoc.length) ∧
    calculate fsqrt flog fatan rxType (some "dask") true
        (some (kernelRows fsqrt flog fatan rxType cells rxLoc)) n_cpu maxRAM rxLoc cells =
      some (Except.ok (kernelRows fsqrt flog fatan rxType cells rxLoc),
        some (kernelRows fsqrt flog fatan rxType cells rxLoc), 0) := by
  have hnz : ¬ (rowChunk = 0 ∨ colChunk = 0) := by omega
  constructor <;>
    simp [calculate, hplan, hnz, truthy, kernelRows, flatten_map_singleton]

/-- Closed witness for `cache_roundtrip` on a one-receiver, one-cell
problem. -/
theorem cache_roundtrip_witness :
    calculate id id id "z" (some "dask") true none 1 8
        [Loc.mk 0 0 0] [Cell.mk 0 1 0 1 0 1] =
      some (Except.ok (kernelRows id id id "z" [Cell.mk 0 1 0 1 0 1] [Loc.mk 0 0 0]),
        some (kernelRows id id id "z" [Cell.mk 0 1 0 1 0 1] [Loc.mk 0 0 0]),
        [Loc.mk 0 0 0].length) ∧
    calculate id id id "z" (some "dask") true
        (some (kernelRows id id id "z" [Cell.mk 0 1 0 1 0 1] [Loc.mk 0 0 0])) 1 8
        [Loc.mk 0 0 0] [Cell.mk 0 1 0 1 0 1] =
      some (Except.ok (kernelRows id id id "z" [Cell.mk 0 1 0 1 0 1] [Loc.mk 0 0 0]),
        some (kernelRows id id id "z" [Cell.mk 0 1 0 1 0 1] [Loc.mk 0 0 0]), 0) :=
  cache_roundtrip id id id "z" 1 8 [Loc.mk 0 0 0] [Cell.mk 0 1 0 1 0 1] 1 1
    (by simp [plan_1_1_1_8]) (by decide) (by decide)

/-- C9: any truthy backend identifier other than `"dask"` and
`"multiprocessing"` fails the assertion: `calculate` returns a
`ConfigurationError` whose message (see `configMsg`) names the allowed
set and the offending value, the store is untouched, and zero kernel
rows are computed.  (Falsy values — `None` or the empty string — select
the sequential backend instead.) -/
theorem invalid_backend_error (fsqrt flog fatan : ℚ → ℚ) (rxType : String)
    (s : String) (storeG : Bool) (store : Option (List (List ℚ)))
    (n_cpu : ℕ) (maxRAM : ℚ) (rxLoc : List Loc) (cells : List Cell)
    (hne : s ≠ "") (hd : s ≠ "dask") (hm : s ≠ "multiprocessing")
    (hplan : (plan (rxLoc.length + cells.length + 2) rxLoc.length cells.length
        n_cpu maxRAM).isSome = true) :
    calculate fsqrt flog fatan rxType (some s) storeG store n_cpu maxRAM rxLoc cells =
      some (Except.error (GravError.configError (configMsg s)), store, 0) := by
  obtain ⟨p, hp⟩ := Option.isSome_iff_exists.mp hplan
  obtain ⟨r, c⟩ := p
  simp [calculate, hp, truthy, hne, hd, hm]

/-- Closed witness for `invalid_backend_error`: the unrecognized backend
`"spark"` is rejected with the assertion message naming it. -/
theorem invalid_backend_error_witness :
    calculate id id id "z" (some "spark") false none 1 8
        [Loc.mk 0 0 0] [Cell.mk 0 1 0 1 0 1] =
      some (Except.error (GravError.configError (configMsg "spark")), none, 0) :=
  invalid_backend_error id id id "z" "spark" false none 1 8
    [Loc.mk 0 0 0] [Cell.mk 0 1 0 1 0 1]
    (by decide) (by decide) (by decide) (by simp [plan_1_1_1_8])

/-- The state of a `GravityIntegral` instance as seen by the `G`
property: whether the problem is paired to a survey, and the `_G`
cache attribute. -/
structure GravState where
  ispaired : Bool
  Gcache : Option (List (List ℚ))
deriving DecidableEq

/-- The `G` property of `GravityIntegral`: raise `Need to pair!` when
not paired; otherwise return the cached `_G`, or build it once through
`Intrgl_Fwr_Op` / `Forward.calculate` and cache it.  The result carries
the outcome, the post-call instance state, the post-call store content
and the number of row-kernel invocations; `none` models a diverging
chunk-planning loop. -/
def getG (fsqrt flog fatan : ℚ → ℚ) (rxType : String)
    (parallelized : Option String) (storeG : Bool)
    (store : Option (List (List ℚ))) (n_cpu : ℕ) (maxRAM : ℚ)
    (rxLoc : List Loc) (cells : List Cell) (s : GravState) :
    Option (Except GravError (List (List ℚ) × GravState) ×
      Option (List (List ℚ)) × ℕ) :=
  if s.ispaired = false then
    some (Except.error (GravError.notPaired "Need to pair!"), store, 0)
  else
    match s.Gcache with
    | some g => some (Except.ok (g, s), store, 0)
    | none =>
      match calculate fsqrt flog fatan rxType parallelized storeG store
          n_cpu maxRAM rxLoc cells with
      | none => none
      | some (Except.error e, st, k) => some (Except.error e, st, k)
      | some (Except.ok g, st, k) =>
        some (Except.ok (g, { ispaired := true, Gcache := some g }), st, k)

/-- C8: while the operator is unpaired, every access to `G` fails with
the not-paired error and performs no assembly (zero kernel calls,
store untouched), whatever the cache holds; once paired, a first access
with an empty cache builds `G` via `calculate` and stores it in the
cache, and every later access returns the cached matrix unchanged with
zero kernel calls. -/
theorem G_access_pairing (fsqrt flog fatan : ℚ → ℚ) (rxType : String)
    (parallelized : Option String) (storeG : Bool)
    (store : Option (List (List ℚ))) (n_cpu : ℕ) (maxRAM : ℚ)
    (rxLoc : List Loc) (cells : List Cell)
    (gc : Option (List (List ℚ))) (g : List (List ℚ))
    (st : Option (List (List ℚ))) (k : ℕ) :
    (getG fsqrt flog fatan rxType parallelized storeG store n_cpu maxRAM rxLoc cells
        ⟨false, gc⟩ =
      some (Except.error (GravError.notPaired "Need to pair!"), store, 0)) ∧
    (calculate fsqrt flog fatan rxType parallelized storeG store n_cpu maxRAM rxLoc cells =
        some (Except.ok g, st, k) →
      getG fsqrt flog fatan rxType parallelized storeG store n_cpu maxRAM rxLoc cells
          ⟨true, none⟩ =
        some (Except.ok (g, ⟨true, some g⟩), st, k)) ∧
    (getG fsqrt flog fatan rxType parallelized storeG store n_cpu maxRAM rxLoc cells
        ⟨true, some g⟩ =
      some (Except.ok (g, ⟨true, some g⟩), store, 0)) := by
  refine ⟨rfl, fun hc => ?_, rfl⟩
  simp [getG, hc]

/-- Closed witness for `G_access_pairing` on a one-receiver, one-cell
sequential problem: unpaired access errors; the first paired access
builds and caches the kernel row; the second paired access serves the
cache with zero kernel calls. -/
theorem G_access_pairing_witness :
    (getG id id id "z" none false none 1 8 [Loc.mk 0 0 0] [Cell.mk 0 1 0 1 0 1]
        ⟨false, none⟩ =
      some (Except.error (GravError.notPaired "Need to pair!"), none, 0)) ∧
    (getG id id id "z" none false none 1 8 [Loc.mk 0 0 0] [Cell.mk 0 1 0 1 0 1]
        ⟨true, none⟩ =
      some (Except.ok (kernelRows id id id "z" [Cell.mk 0 1 0 1 0 1] [Loc.mk 0 0 0],
        ⟨true, some (kernelRows id id id "z" [Cell.mk 0 1 0 1 0 1] [Loc.mk 0 0 0])⟩),
        none, 1)) ∧
    (getG id id id "z" none false none 1 8 [Loc.mk 0 0 0] [Cell.mk 0 1 0 1 0 1]
        ⟨true, some (kernelRows id id id "z" [Cell.mk 0 1 0 1 0 1] [Loc.mk 0 0 0])⟩ =
      some (Except.ok (kernelRows id id id "z" [Cell.mk 0 1 0 1 0 1] [Loc.mk 0 0 0],
        ⟨true, some (kernelRows id id id "z" [Cell.mk 0 1 0 1 0 1] [Loc.mk 0 0 0])⟩),
        none, 0)) :=
  ⟨(G_access_pairing id id id "z" none false none 1 8 [Loc.mk 0 0 0]
      [Cell.mk 0 1 0 1 0 1] none (kernelRows id id id "z" [Cell.mk 0 1 0 1 0 1]
      [Loc.mk 0 0 0]) none 1).1,
    (G_access_pairing id id id "z" none false none 1 8 [Loc.mk 0 0 0]
      [Cell.mk 0 1 0 1 0 1] none (kernelRows id id id "z" [Cell.mk 0 1 0 1 0 1]
      [Loc.mk 0 0 0]) none 1).2.1
      (by simp [calculate, plan_1_1_1_8, truthy, kernelRows, foldl_append_map]),
    (G_access_pairing id id id "z" none false none 1 8 [Loc.mk 0 0 0]
      [Cell.mk 0 1 0 1 0 1] none (kernelRows id id id "z" [Cell.mk 0 1 0 1 0 1]
      [Loc.mk 0 0 0]) none 1).2.2⟩

/-- `GravityIntegral.fields` composed with `Intrgl_Fwr_Op`: `fields`
first maps its argument (`m = self.rhoMap*m`); in forward-only mode it
passes the mapped vector to `Intrgl_Fwr_Op`, which maps it again
(`self.model = self.rhoMap*m`) before every receiver row is reduced
against the stored model; with forward-only off, `G` is assembled with
no model argument and `da.dot(self.G, m)` is returned. -/
def fields (fsqrt flog fatan : ℚ → ℚ) (rxType : String)
    (rhoMap : List ℚ → List ℚ) (forwardOnly : Bool)
    (rxLoc : List Loc) (cells : List Cell) (m : List ℚ) : List ℚ :=
  let m1 := rhoMap m
  if forwardOnly then
    let model := rhoMap m1
    rxLoc.map (fun loc => dotQ (calcTrow fsqrt flog fatan rxType cells loc) model)
  else
    (kernelRows fsqrt flog fatan rxType cells rxLoc).map (fun row => dotQ row m1)

/-- C3 (code bug): on a concrete one-cell, one-receiver problem with the
non-trivial linear density map `v ↦ 2·v`, forward-only streaming
disagrees with the full-matrix product: `fields` hands the already
mapped model to `Intrgl_Fwr_Op`, which applies `rhoMap` a second time,
so streaming computes `G·(rhoMap(rhoMap m))` instead of the claimed
`G·(rhoMap m)`. -/
theorem fields_forwardOnly_double_map :
    fields id id id "z" (fun v => v.map (fun x => 2 * x)) true
        [Loc.mk 2 3 4] [Cell.mk 0 1 0 1 0 1] [1] ≠
      fields id id id "z" (fun v => v.map (fun x => 2 * x)) false
        [Loc.mk 2 3 4] [Cell.mk 0 1 0 1 0 1] [1] := by
  have hz1 : ("z" : String) ≠ "x" := by decide
  have hz2 : ("z" : String) ≠ "y" := by decide
  have hne : calcTrowCell id id id "z" (Loc.mk 2 3 4) (Cell.mk 0 1 0 1 0 1) ≠ 0 := by
    simp only [calcTrowCell, corners, List.foldl, cornerComp, if_neg hz1, if_neg hz2]
    norm_num [dxSel, dySel, dzSel, NewtG, eps]
  intro h
  simp [fields, kernelRows, calcTrow, dotQ] at h
  ring_nf at h
  exact hne (by linarith)

/-- `da.sum(self.G**2., 0)`: the vector of column sums of squared
entries of `G`. -/
def sumSqCols {nD nC : ℕ} (G : Matrix (Fin nD) (Fin nC) ℚ) : Fin nC → ℚ :=
  fun j => ∑ i, G i j ^ 2

/-- `GravityIntegral.getJtJdiag`: when the `gtgdiag` cache is empty,
the diagonal of `W` is read into `w` (and then never used) and the
cache is filled with `sumSqCols G`; the returned vector is
`np.sum((sdiag(gtgdiag**0.5) * dmudm).power(2.), axis=0)` where `sq`
models the square root.  The result carries the returned vector, the
`gtgdiag` cache after the call, and whether the cache was computed
during this call. -/
def getJtJdiag {nD nC nM : ℕ} (sq : ℚ → ℚ) (G : Matrix (Fin nD) (Fin nC) ℚ)
    (dmudm : Matrix (Fin nC) (Fin nM) ℚ) (W : Option (Fin nC → ℚ))
    (cache : Option (Fin nC → ℚ)) : (Fin nM → ℚ) × (Fin nC → ℚ) × Bool :=
  let gtgdiag : Fin nC → ℚ :=
    match cache with
    | some c => c
    | none =>
      let _w : Fin nC → ℚ :=
        match W with
        | none => fun _ => 1
        | some Wd => Wd
      sumSqCols G
  (fun j => ∑ i, (sq (gtgdiag i) * dmudm i j) ^ 2, gtgdiag, cache.isNone)

/-- C6: with a square root satisfying `sq(c)^2 = c` on the column sums
of squares of `G`, a first call of `getJtJdiag` returns exactly
`diag(dmudmᵀ · diag(sumSqCols G) · dmudm)`; the result is the same for
every weight argument `W` (which the code reads but never uses); and a
repeated call reuses the cached column-sum-of-squares vector without
recomputing it, returning the same result. -/
theorem getJtJdiag_spec {nD nC nM : ℕ} (sq : ℚ → ℚ)
    (G : Matrix (Fin nD) (Fin nC) ℚ) (dmudm : Matrix (Fin nC) (Fin nM) ℚ)
    (W W2 : Option (Fin nC → ℚ))
    (hsq : ∀ i, sq (sumSqCols G i) ^ 2 = sumSqCols G i) :
    ((getJtJdiag sq G dmudm W none).1 =
      Matrix.diag (dmudm.transpose * Matrix.diagonal (sumSqCols G) * dmudm)) ∧
    (getJtJdiag sq G dmudm W none).1 = (getJtJdiag sq G dmudm W2 none).1 ∧
    (getJtJdiag sq G dmudm W2 (some (getJtJdiag sq G dmudm W none).2.1)).1 =
      (getJtJdiag sq G dmudm W none).1 ∧
    (getJtJdiag sq G dmudm W2 (some (getJtJdiag sq G dmudm W none).2.1)).2.2 = false := by
  refine ⟨?_, rfl, rfl, rfl⟩
  funext j
  show (∑ i, (sq (sumSqCols G i) * dmudm i j) ^ 2) = _
  rw [Matrix.diag]
  rw [Matrix.mul_apply]
  simp only [Matrix.mul_diagonal, Matrix.transpose_apply]
  refine Finset.sum_congr rfl fun i _ => ?_
  rw [mul_pow, hsq i]
  ring

/-- Closed witness for `getJtJdiag_spec`: a hand-built 2×2 `G` whose
column sums of squares are the perfect square `25`, with `dmudm` the
identity map derivative. -/
theorem getJtJdiag_spec_witness :
    ((getJtJdiag (fun x => if x = 25 then 5 else 0) (Matrix.of ![![3, 4], ![4, 3]])
        (1 : Matrix (Fin 2) (Fin 2) ℚ) none none).1 =
      Matrix.diag ((1 : Matrix (Fin 2) (Fin 2) ℚ).transpose *
        Matrix.diagonal (sumSqCols (Matrix.of ![![3, 4], ![4, 3]])) *
        (1 : Matrix (Fin 2) (Fin 2) ℚ))) ∧
    (getJtJdiag (fun x => if x = 25 then 5 else 0) (Matrix.of ![![3, 4], ![4, 3]])
        (1 : Matrix (Fin 2) (Fin 2) ℚ) none none).1 =
      (getJtJdiag (fun x => if x = 25 then 5 else 0) (Matrix.of ![![3, 4], ![4, 3]])
        (1 : Matrix (Fin 2) (Fin 2) ℚ) (some fun _ => 7) none).1 ∧
    (getJtJdiag (fun x => if x = 25 then 5 else 0) (Matrix.of ![![3, 4], ![4, 3]])
        (1 : Matrix (Fin 2) (Fin 2) ℚ) (some fun _ => 7)
        (some (getJtJdiag (fun x => if x = 25 then 5 else 0)
          (Matrix.of ![![3, 4], ![4, 3]])
          (1 : Matrix (Fin 2) (Fin 2) ℚ) none none).2.1)).1 =
      (getJtJdiag (fun x => if x = 25 then 5 else 0) (Matrix.of ![![3, 4], ![4, 3]])
        (1 : Matrix (Fin 2) (Fin 2) ℚ) none none).1 ∧
    (getJtJdiag (fun x => if x = 25 then 5 else 0) (Matrix.of ![![3, 4], ![4, 3]])
        (1 : Matrix (Fin 2) (Fin 2) ℚ) (some fun _ => 7)
        (some (getJtJdiag (fun x => if x = 25 then 5 else 0)
          (Matrix.of ![![3, 4], ![4, 3]])
          (1 : Matrix (Fin 2) (Fin 2) ℚ) none none).2.1)).2.2 = false :=
  getJtJdiag_spec (fun x => if x = 25 then 5 else 0) (Matrix.of ![![3, 4], ![4, 3]])
    (1 : Matrix (Fin 2) (Fin 2) ℚ) none (some fun _ => 7)
    (by
      intro i
      fin_cases i <;>
        norm_num [sumSqCols, Fin.sum_univ_two, Matrix.cons_val_zero, Matrix.cons_val_one,
          Matrix.head_cons])

end Gravity
